import Mathlib

/-!
Shallow embedding of the apf-tuning library (src/src/*.rs) for checking its
natural-language specification.

Modelling conventions:
* `usize`/`u32` values are `Nat`.  Arithmetic is exact except where the Rust
  source can underflow a `usize` subtraction; those spots use `subUsize`,
  which models the two's-complement wrap of a 64-bit `usize` (release build).
* `Vec<T>` is a `List T` together with an explicit `cap` field where the
  source distinguishes `len()` from `capacity()` (the `Histogram`).  An index
  expression `v[i]` panics in Rust when `i >= v.len()`; fallible operations
  therefore return `Option`, with `none` modelling a panic.
* `f32` is modelled by `Rat`.  Every concrete value appearing in a theorem
  below stays in the range where `f32` arithmetic is exact (small integers
  and small-denominator fractions), so the embedding agrees with the source
  on those inputs.
* `HashMap<usize, T>` keyed by slot or by `k` is modelled by a function
  `Nat → Option T` with pointwise insertion; the source only uses
  `insert`/`get`, never iteration, so the model is faithful.
-/

/-- constants.rs: initial trace capacity. -/
def INIT_TRACE_LENGTH : Nat := 1 <<< 14

/-- constants.rs: initial histogram capacity (`1 << 5`). -/
def INIT_HISTOGRAM_LENGTH : Nat := 1 <<< 5

/-- constants.rs: default burst length. -/
def REUSE_BURST_LENGTH : Nat := 3000

/-- constants.rs: default hibernation period. -/
def REUSE_HIBERNATION_PERIOD : Nat := 6000

/-- constants.rs: whether the tuner drives the counters on the allocation
clock (`true` in the source). -/
def USE_ALLOCATION_CLOCK : Bool := true

/-- Two's-complement wrap of the `usize` subtraction `a - b`
(release-build semantics of the Rust source). For `b ≤ a < 2^64` this is
the ordinary difference. -/
def subUsize (a b : Nat) : Nat :=
  ((((a : Int) - (b : Int)) % ((2 : Int) ^ 64))).toNat

/-- `Vec` indexed read `v[i]` (panics when `i ≥ len`). -/
def getF (l : List Nat) (i : Nat) : Option Nat := l[i]?

/-- `Vec` indexed write `v[i] = x` (panics when `i ≥ len`). -/
def setF (l : List Nat) (i x : Nat) : Option (List Nat) :=
  if i < l.length then some (l.set i x) else none

/-- `Vec` compound assignment `v[i] += x` (read then write). -/
def addAtF (l : List Nat) (i x : Nat) : Option (List Nat) := do
  let cur ← getF l i
  setF l i (cur + x)

/-- trace.rs: `Event` — a single allocation or free carrying its heap slot. -/
inductive Event where
  | Alloc (slot : Nat)
  | Free (slot : Nat)
deriving DecidableEq, Repr

/-- trace.rs: `Trace` — append-only vector of events plus a running `length`.
All constructors below keep `length` equal to `accesses.length`, so loops of
the form `for i in 0..self.length()` over `get(i)` traverse exactly
`accesses`. -/
structure Trace where
  accesses : List Event
  length : Nat
deriving DecidableEq, Repr

/-- trace.rs: `Trace::new`. -/
def Trace.new : Trace := ⟨[], 0⟩

/-- trace.rs: `Trace::add` — push an event and bump `length`. -/
def Trace.add (t : Trace) (e : Event) : Trace :=
  ⟨t.accesses ++ [e], t.length + 1⟩

/-- trace.rs: `Trace::get` (indexed access; panics out of range). -/
def Trace.get? (t : Trace) (i : Nat) : Option Event := t.accesses[i]?

/-- trace.rs: loop body state of `free_intervals`: walk the events with the
running index `i` and the `frees : slot → most recent Free index` map; at an
`Alloc` whose slot is recorded, emit `(s, i)`.  (The map is never cleared on
a hit, exactly as in the source.) -/
def fiAux : Nat → (Nat → Option Nat) → List Event → List (Nat × Nat)
  | _, _, [] => []
  | i, frees, Event.Free c :: rest =>
      fiAux (i + 1) (fun c' => if c' = c then some i else frees c') rest
  | i, frees, Event.Alloc c :: rest =>
      match frees c with
      | some s => (s, i) :: fiAux (i + 1) frees rest
      | none => fiAux (i + 1) frees rest

/-- trace.rs: `Trace::free_intervals` — the `(s, e)` pairs on the event
clock (both components are indices into `accesses`). -/
def Trace.free_intervals (t : Trace) : List (Nat × Nat) :=
  fiAux 0 (fun _ => none) t.accesses

/-- Modelled from the spec: `Trace::alloc_length` is called by
`reuse_counter.rs` (line 93) but is absent from the `trace.rs` in `src/`;
per the spec, the `alloc_count` accessor "equals the number of Alloc events
added". -/
def Trace.alloc_length (t : Trace) : Nat :=
  t.accesses.countP (fun e => match e with | Event.Alloc _ => true | _ => false)

/-- Comparison definition following the spec's words (§3, §4.2): free
intervals on the *allocation clock* — `s` is the alloc-count at the Free
event, `e` is the post-increment alloc-count at the matching re-Alloc; the
alloc clock advances only on Alloc events. -/
def acAux : Nat → (Nat → Option Nat) → List Event → List (Nat × Nat)
  | _, _, [] => []
  | ac, frees, Event.Free c :: rest =>
      acAux ac (fun c' => if c' = c then some ac else frees c') rest
  | ac, frees, Event.Alloc c :: rest =>
      match frees c with
      | some s => (s, ac + 1) :: acAux (ac + 1) frees rest
      | none => acAux (ac + 1) frees rest

/-- Comparison definition following the spec's words: the allocation-clock
free-interval list of a trace. -/
def Trace.allocClockIntervals (t : Trace) : List (Nat × Nat) :=
  acAux 0 (fun _ => none) t.accesses

/-- histogram.rs: `Histogram` — a `Vec<usize>` whose `capacity` and `len`
are tracked separately (`Vec::with_capacity` sets `cap` but leaves
`len = 0`; the source never pushes, so indexing consults `data.length`). -/
structure Histogram where
  data : List Nat
  cap : Nat
deriving DecidableEq, Repr

/-- histogram.rs: the `while reserve_amount <= failed_key` doubling loop of
`grow`, run with enough fuel: starting from `r ≥ 1` the value at least
doubles each step, so `k + 1` iterations always reach the exit condition
(the source's capacity is always ≥ 32, so the fuel never runs out). -/
def growIter : Nat → Nat → Nat → Nat
  | 0, r, _ => r
  | fuel + 1, r, k => if r ≤ k then growIter fuel (2 * r) k else r

/-- histogram.rs: `Histogram::grow` — double `reserve_amount` past
`failed_key`, `reserve` that much (which raises `cap` but not `len`), then
zero the new slots with `self.histogram[i] = 0`, an indexed write that
panics as soon as the range `oldMax..capacity` is non-empty (every such `i`
is `≥ len`). -/
def Histogram.grow (h : Histogram) (failed_key : Nat) : Option Histogram := do
  let oldMax := h.cap
  let amount := growIter (failed_key + 1) oldMax failed_key
  let newCap := max h.cap (h.data.length + amount)
  let data ← (List.range' oldMax (newCap - oldMax)).foldlM
    (fun d i => setF d i 0) h.data
  some ⟨data, newCap⟩

/-- histogram.rs: `Histogram::increment` (`inc(k)`). -/
def Histogram.increment (h : Histogram) (key : Nat) : Option Histogram := do
  let h ← if key ≥ h.cap - 1 then h.grow key else some h
  let cur ← getF h.data key
  let data ← setF h.data key (cur + 1)
  some ⟨data, h.cap⟩

/-- histogram.rs: `Histogram::add` (`add(k, v)`). -/
def Histogram.add (h : Histogram) (key val : Nat) : Option Histogram := do
  let h ← if key ≥ h.cap - 1 then h.grow key else some h
  let cur ← getF h.data key
  let data ← setF h.data key (cur + val)
  some ⟨data, h.cap⟩

/-- histogram.rs: `Histogram::get` — returns 0 for keys at or beyond
`capacity`, otherwise performs the indexed read `self.histogram[key]`
(which panics when `key ≥ len`). -/
def Histogram.get (h : Histogram) (key : Nat) : Option Nat :=
  if key ≥ h.cap then some 0 else getF h.data key

/-- histogram.rs: `Histogram::new` — `Vec::with_capacity(32)`, length 0. -/
def Histogram.new : Histogram := ⟨[], INIT_HISTOGRAM_LENGTH⟩

/-- histogram.rs: `Histogram::count`. -/
def Histogram.count (h : Histogram) : Nat := h.data.length

/-- liveness_counter.rs: `LivenessCounter` state. -/
structure LivenessCounter where
  n : Nat
  m : Nat
  alloc_sum : Histogram
  alloc_counts : Histogram
  free_sum : Histogram
  free_counts : Histogram
deriving DecidableEq, Repr

/-- liveness_counter.rs: `LivenessCounter::new`. -/
def LivenessCounter.new : LivenessCounter :=
  ⟨0, 0, Histogram.new, Histogram.new, Histogram.new, Histogram.new⟩

/-- liveness_counter.rs: `LivenessCounter::alloc`. -/
def LivenessCounter.alloc (l : LivenessCounter) : Option LivenessCounter := do
  let as_ ← l.alloc_sum.add l.n l.n
  let ac ← l.alloc_counts.increment l.n
  some { l with alloc_sum := as_, alloc_counts := ac, m := l.m + 1 }

/-- liveness_counter.rs: `LivenessCounter::free`. -/
def LivenessCounter.free (l : LivenessCounter) : Option LivenessCounter := do
  let fs ← l.free_sum.add l.n l.n
  let fc ← l.free_counts.increment l.n
  some { l with free_sum := fs, free_counts := fc }

/-- liveness_counter.rs: `LivenessCounter::inc_timer` — advance `n`, then
copy each histogram's value at `n-1` into `n` (argument `get(n-1)` is
evaluated before each `add`, as in the source). -/
def LivenessCounter.inc_timer (l : LivenessCounter) : Option LivenessCounter := do
  let n := l.n + 1
  let acPrev ← l.alloc_counts.get (n - 1)
  let ac ← l.alloc_counts.add n acPrev
  let asPrev ← l.alloc_sum.get (n - 1)
  let as_ ← l.alloc_sum.add n asPrev
  let fcPrev ← l.free_counts.get (n - 1)
  let fc ← l.free_counts.add n fcPrev
  let fsPrev ← l.free_sum.get (n - 1)
  let fs ← l.free_sum.add n fsPrev
  some ⟨n, l.m, as_, ac, fs, fc⟩

/-- liveness_counter.rs: `LivenessCounter::liveness`.  The `usize`
subtractions use `subUsize`; the final `f32` quotient is modelled exactly
over `Rat` (for `i = 0` the source divides by `0.0f32`, producing a
non-finite value; the model returns `0`, and no claim below evaluates
`liveness` — every run panics inside the histograms first). -/
def LivenessCounter.liveness (l : LivenessCounter) (k : Nat) : Option Rat :=
  if (l.n : Int) - (k : Int) + 1 < 0 then some 0
  else do
    let i := l.n + 1 - k
    let fci ← l.free_counts.get i
    let fsi ← l.free_sum.get i
    let tmp1 := subUsize l.m fci * i + fsi
    let ack ← l.alloc_counts.get k
    let asn ← l.alloc_sum.get l.n
    let ask ← l.alloc_sum.get k
    let tmp2 := subUsize (ack * k + asn) ask
    some ((subUsize (tmp1 + l.m * k) tmp2 : Nat) / (i : Rat))

/-- reuse_counter.rs: the seven scatter arrays filled by the first pass of
the offline reduction, with the source's names. -/
structure ScatterArrays where
  start_index_counts : List Nat
  end_index_counts : List Nat
  len_counts : List Nat
  start_indices_sums : List Nat
  start_indices_min_sums : List Nat
  end_indices_sums : List Nat
  end_indices_max_sums : List Nat
deriving DecidableEq, Repr

/-- reuse_counter.rs lines 104-115: one iteration of the scatter pass over
an interval `(s, e)`; every write `arr[idx] += v` is a fallible `Vec` index
into a length-`n` array and the writes happen in source order.  (Emitted
intervals always satisfy `s < e`, so `e - s + 1` never underflows.) -/
def scatterStep (n : Nat) (a : ScatterArrays) (iv : Nat × Nat) :
    Option ScatterArrays := do
  let s := iv.1
  let e := iv.2
  let len := e - s + 1
  let sic ← addAtF a.start_index_counts s 1
  let eic ← addAtF a.end_index_counts e 1
  let lc ← addAtF a.len_counts (len - 1) 1
  let sis ← addAtF a.start_indices_sums (len - 1) s
  let sims ← addAtF a.start_indices_min_sums (len - 1) (min (n - len) s)
  let eis ← addAtF a.end_indices_sums (len - 1) e
  let eims ← addAtF a.end_indices_max_sums (len - 1) (max len e)
  some ⟨sic, eic, lc, sis, sims, eis, eims⟩

/-- reuse_counter.rs lines 125-129: one iteration of the prefix pass. -/
def prefixStep (n : Nat) (a : ScatterArrays)
    (st : List Nat × List Nat × List Nat) (i : Nat) :
    Option (List Nat × List Nat × List Nat) := do
  let (snk, ek1, llk) := st
  let v1 ← getF snk (i - 1)
  let c1 ← getF a.start_index_counts (n - i)
  let snk ← setF snk i (v1 + c1)
  let v2 ← getF ek1 (i - 1)
  let c2 ← getF a.end_index_counts i
  let ek1 ← setF ek1 i (v2 + c2)
  let v3 ← getF llk (i - 1)
  let c3 ← getF a.len_counts i
  let llk ← setF llk i (v3 + c3)
  some (snk, ek1, llk)

/-- reuse_counter.rs lines 138-144: one iteration of the X/Y/Z recurrence
pass (`k = i + 1`); the `usize` subtraction in `x[i]` uses `subUsize`. -/
def xyzStep (a : ScatterArrays) (snk ek1 llk : List Nat)
    (st : List Nat × List Nat × List Nat) (i : Nat) :
    Option (List Nat × List Nat × List Nat) := do
  let (x, y, z) := st
  let k := i + 1
  let xp ← getF x (i - 1)
  let ms ← getF a.start_indices_min_sums i
  let nk ← getF snk i
  let x ← setF x i (subUsize (xp + ms) nk)
  let yp ← getF y (i - 1)
  let e1 ← getF ek1 (i - 1)
  let mx ← getF a.end_indices_max_sums i
  let y ← setF y i (yp + e1 + mx)
  let zp ← getF z (i - 1)
  let ll ← getF llk (i - 1)
  let lcc ← getF a.len_counts i
  let z ← setF z i (zp + ll + k * lcc)
  some (x, y, z)

/-- reuse_counter.rs lines 117-129: the prefix pass — the three
unconditional writes at index 0 (lines 121-123, the first statements to
panic when `n = 0`) followed by the `for i in 1..n` loop. -/
def reusePrefixes (n : Nat) (a : ScatterArrays) :
    Option (List Nat × List Nat × List Nat) := do
  let rep := List.replicate n 0
  let snk0 ← setF rep 0 0
  let ek10 ← setF rep 0 0
  let lc0 ← getF a.len_counts 0
  let llk0 ← setF rep 0 lc0
  (List.range' 1 (n - 1)).foldlM (prefixStep n a) (snk0, ek10, llk0)

/-- reuse_counter.rs lines 130-144: the X/Y/Z recurrence pass — seed
`x[0]`, `y[0]`, `z[0]` (lines 134-136) and run the `for i in 1..n` loop. -/
def reuseXYZ (n : Nat) (a : ScatterArrays) (snk ek1 llk : List Nat) :
    Option (List Nat × List Nat × List Nat) := do
  let rep := List.replicate n 0
  let xv ← getF a.start_indices_sums 0
  let x0 ← setF rep 0 xv
  let yv ← getF a.end_indices_sums 0
  let y0 ← setF rep 0 yv
  let zv ← getF a.len_counts 0
  let z0 ← setF rep 0 zv
  (List.range' 1 (n - 1)).foldlM (xyzStep a snk ek1 llk) (x0, y0, z0)

/-- reuse_counter.rs lines 146-152: emit the result map
`R(k) = (x[k-1] + z[k-1] - y[k-1]) / (n - k + 1)` for `k` in `1..n+1`;
the `usize` subtraction uses `subUsize`. -/
def reuseEmit (n : Nat) (x y z : List Nat) : Option (Nat → Option Rat) :=
  (List.range' 1 n).foldlM
    (fun m k => do
      let xv ← getF x (k - 1)
      let zv ← getF z (k - 1)
      let yv ← getF y (k - 1)
      some (fun k' => if k' = k
        then some ((subUsize (xv + zv) yv : Nat) / ((n - k + 1 : Nat) : Rat))
        else m k'))
    (fun _ => none)

/-- reuse_counter.rs lines 91-155: the offline reuse reduction `reuse(t)`,
factored over the interval list and the length `n` it is called with.
`none` models a panic (an out-of-range `Vec` index).  The result map models
the returned `HashMap<usize, f32>`. -/
def reuseReduce (intervals : List (Nat × Nat)) (n : Nat) :
    Option (Nat → Option Rat) := do
  let rep := List.replicate n 0
  let a ← intervals.foldlM (scatterStep n)
    ⟨rep, rep, rep, rep, rep, rep, rep⟩
  let st1 ← reusePrefixes n a
  let st2 ← reuseXYZ n a st1.1 st1.2.1 st1.2.2
  reuseEmit n st2.1 st2.2.1 st2.2.2

/-- reuse_counter.rs: the free function `reuse(t: &Trace)` — reduce the
trace's free intervals with `n = t.alloc_length()`.  (Named `reuseOf` here
because inside the `ReuseCounter` namespace the bare name `reuse` would
resolve to the structure field of the same name.) -/
def reuseOf (t : Trace) : Option (Nat → Option Rat) :=
  reuseReduce t.free_intervals t.alloc_length

/-- Reference reduction following the claim's words: for each of the
`n - k + 1` windows of length `k` on the clock `{0, …, n-1}` (window `j`
covers positions `j … j+k-1`), count the free intervals fully contained in
the window, and average.  Containment of `(s, e)` in window `j` is
`j ≤ s ∧ e ≤ j + k - 1`, written additively to avoid truncation. -/
def naiveReuse (intervals : List (Nat × Nat)) (n k : Nat) : Rat :=
  (((List.range (n - k + 1)).map
      (fun j => (intervals.filter
        (fun iv => decide (j ≤ iv.1 ∧ iv.2 + 1 ≤ j + k))).length)).sum : Nat) /
    ((n - k + 1 : Nat) : Rat)

/-- reuse_counter.rs: `ReuseCounter` state.  The `reuse` field is the
optional cached table (`HashMap<usize, f32>` modelled as a function). -/
structure ReuseCounter where
  burst_length : Nat
  hibernation_period : Nat
  n : Nat
  trace : Option Trace
  reuse : Option (Nat → Option Rat)

/-- reuse_counter.rs: `ReuseCounter::new` — starts sampling with an empty
trace and no cached table. -/
def ReuseCounter.new (bl hp : Nat) : ReuseCounter :=
  ⟨bl, hp, 0, some Trace.new, none⟩

/-- reuse_counter.rs: `ReuseCounter::alloc` — append when a trace is
active, otherwise do nothing. -/
def ReuseCounter.alloc (c : ReuseCounter) (slot : Nat) : ReuseCounter :=
  match c.trace with
  | some t => { c with trace := some (t.add (Event.Alloc slot)) }
  | none => c

/-- reuse_counter.rs: `ReuseCounter::free`. -/
def ReuseCounter.free (c : ReuseCounter) (slot : Nat) : ReuseCounter :=
  match c.trace with
  | some t => { c with trace := some (t.add (Event.Free slot)) }
  | none => c

/-- reuse_counter.rs: `ReuseCounter::sampling`. -/
def ReuseCounter.sampling (c : ReuseCounter) : Bool :=
  c.trace.isSome

/-- reuse_counter.rs: `ReuseCounter::inc_timer` — advance `n`; at burst
completion run the offline reduction (which can panic, hence `Option`) and
hibernate; at hibernation end start a fresh trace. -/
def ReuseCounter.inc_timer (c : ReuseCounter) : Option ReuseCounter :=
  let n := c.n + 1
  match c.trace with
  | some tr =>
      if n ≥ c.burst_length then do
        let r ← reuseOf tr
        some { c with reuse := some r, n := 0, trace := none }
      else some { c with n := n }
  | none =>
      if n ≥ c.hibernation_period then
        some { c with n := 0, trace := some Trace.new }
      else some { c with n := n }

/-- reuse_counter.rs: the query `ReuseCounter::reuse(k)` (named `reuseAt`
here because the Lean structure already owns the field name `reuse`):
`none` when no burst has completed, `some 0` when `k` is not in the cached
table, otherwise the cached value. -/
def ReuseCounter.reuseAt (c : ReuseCounter) (k : Nat) : Option Rat :=
  match c.reuse with
  | some table =>
      match table k with
      | some v => some v
      | none => some 0
  | none => none

/-- Host-callback invocation record (observer added to the embedding so
that theorems can state which callbacks a tuner entry point invoked, and
with which arguments). -/
inductive HostCall where
  | check (id : Nat)
  | get (id : Nat) (n : Nat)
  | ret (id : Nat) (n : Nat)
deriving DecidableEq, Repr

/-- lib.rs: the saturating float-to-integer cast `demand.ceil() as usize` /
`as u32` (negative values clamp to 0; the huge positive clamp is beyond
every value reachable here). -/
def ceilCast (d : Rat) : Nat := (Int.toNat ⌈d⌉)

/-- lib.rs: `ApfTuner` — one per size class; the three callbacks are
stored as (pure) function fields, exactly as Rust `fn` pointers. -/
structure ApfTuner where
  id : Nat
  l_counter : LivenessCounter
  r_counter : ReuseCounter
  time : Nat
  fetch_count : Nat
  check : Nat → Nat
  get : Nat → Nat → Bool
  ret : Nat → Nat → Bool

/-- lib.rs: `set_target_apf` acting on the one-shot global `TARGET_APF`
(modelled as explicit state `Option Nat`): a second set panics (`none`). -/
def set_target_apf (tapf : Nat) (st : Option Nat) : Option (Option Nat) :=
  match st with
  | some _ => none
  | none => some (some tapf)

/-- lib.rs: `ApfTuner::new` — panics when `TARGET_APF` is unset; the
global itself is only read. -/
def ApfTuner.new (id : Nat) (check : Nat → Nat) (get : Nat → Nat → Bool)
    (ret : Nat → Nat → Bool) (st : Option Nat) : Option ApfTuner :=
  match st with
  | some _ => some ⟨id, LivenessCounter.new,
      ReuseCounter.new REUSE_BURST_LENGTH REUSE_HIBERNATION_PERIOD,
      0, 0, check, get, ret⟩
  | none => none

/-- lib.rs: `ApfTuner::count_fetch` (defined in the source but never
called by any entry point). -/
def ApfTuner.count_fetch (t : ApfTuner) : ApfTuner :=
  { t with fetch_count := t.fetch_count + 1 }

/-- lib.rs: `ApfTuner::calculate_dapf` with the unwrapped `TARGET_APF`. -/
def ApfTuner.calculate_dapf (t : ApfTuner) (T : Nat) : Nat :=
  if t.time ≥ T * (t.fetch_count + 1) then T
  else T * (t.fetch_count + 1) - t.time

/-- lib.rs: `ApfTuner::demand` — outer `Option` is a panic (only reachable
through the dead non-allocation-clock branch), inner `Option` is the
source's `Option<f32>` ("unknown"). -/
def ApfTuner.demand (t : ApfTuner) (k : Nat) : Option (Option Rat) :=
  if k > t.time then some none
  else
    match t.r_counter.reuseAt k with
    | some r =>
        if USE_ALLOCATION_CLOCK then some (some ((k : Rat) - r))
        else do
          let lk ← t.l_counter.liveness k
          let l0 ← t.l_counter.liveness 0
          some (some (lk - l0 - r))
    | none => some none

/-- lib.rs: `ApfTuner::malloc` — returns the Rust result together with the
successor state and the list of host callbacks invoked (in order).  `none`
models a panic inside the counters; `TARGET_APF` is read when `check`
returns 0. -/
def ApfTuner.malloc (t : ApfTuner) (st : Option Nat) (ptr : Nat) :
    Option (Bool × ApfTuner × List HostCall) := do
  let t := { t with time := t.time + 1 }
  let t ←
    if USE_ALLOCATION_CLOCK then some t
    else do
      let l ← t.l_counter.inc_timer
      let l ← l.alloc
      some { t with l_counter := l }
  let t := { t with r_counter := t.r_counter.alloc ptr }
  let rc ← t.r_counter.inc_timer
  let t := { t with r_counter := rc }
  if t.check t.id = 0 then do
    let T ← st
    let d ← t.demand (t.calculate_dapf T)
    match d with
    | none => some (false, t, [HostCall.check t.id])
    | some demand =>
        some (true, t, [HostCall.check t.id,
          HostCall.get t.id (ceilCast demand)])
  else some (true, t, [HostCall.check t.id])

/-- lib.rs: `ApfTuner::free` — records the free in the reuse counter, then
computes demand; unknown or negative demand returns `false` with no
callback invoked; otherwise `check` is consulted and, when
`check(id) ≥ 2·demand + 1`, `ret` is invoked once with
`ceil(demand) + 1`. -/
def ApfTuner.free (t : ApfTuner) (st : Option Nat) (ptr : Nat) :
    Option (Bool × ApfTuner × List HostCall) := do
  let t := { t with r_counter := t.r_counter.free ptr }
  let t ←
    if USE_ALLOCATION_CLOCK then some t
    else do
      let rc ← t.r_counter.inc_timer
      let t := { t with r_counter := rc, time := t.time + 1 }
      let l ← t.l_counter.inc_timer
      let l ← l.free
      some { t with l_counter := l }
  let T ← st
  let d ← t.demand (t.calculate_dapf T)
  match d with
  | none => some (false, t, [])
  | some demand =>
      if demand < 0 then some (false, t, [])
      else if ((t.check t.id : Nat) : Rat) ≥ 2 * demand + 1 then
        some (true, t, [HostCall.check t.id,
          HostCall.ret t.id (ceilCast demand + 1)])
      else some (true, t, [HostCall.check t.id])

/-- Build a trace by repeated `Trace::add`, as the counters do. -/
def mkTrace (l : List Event) : Trace := l.foldl Trace.add Trace.new

/-- Drive a reuse counter through a list of events with its `alloc`/`free`
entry points (the calls a tuner issues during a sampling burst). -/
def feedEvents (c : ReuseCounter) (l : List Event) : ReuseCounter :=
  l.foldl
    (fun c e => match e with
      | Event.Alloc s => c.alloc s
      | Event.Free s => c.free s) c

/-- A three-event trace whose single free interval starts at event index 0:
`Free(5), Alloc(5), Alloc(7)`. -/
def c1Trace : Trace := mkTrace [Event.Free 5, Event.Alloc 5, Event.Alloc 7]

/-- The spec's §8 sample trace (b): 15 events, 9 Allocs, 6 free
intervals. -/
def sampleEvents : List Event :=
  [Event.Alloc 1, Event.Alloc 2, Event.Alloc 3,
   Event.Free 3, Event.Free 2, Event.Free 1,
   Event.Alloc 1, Event.Alloc 2, Event.Alloc 3,
   Event.Free 3, Event.Free 2, Event.Free 1,
   Event.Alloc 1, Event.Alloc 2, Event.Alloc 3]

/-- The §8 sample trace as a `Trace`. -/
def sampleTrace : Trace := mkTrace sampleEvents

/-- A reuse counter with burst length 1 that has collected the §8 sample
trace during its first sampling burst. -/
def c5Counter : ReuseCounter := feedEvents (ReuseCounter.new 1 5) sampleEvents

/-- Five-event trace separating the two clocks: `Alloc(1), Alloc(2),
Free(1), Free(2), Alloc(1)`. -/
def c2Trace : Trace :=
  mkTrace [Event.Alloc 1, Event.Alloc 2, Event.Free 1, Event.Free 2,
    Event.Alloc 1]

/-- Result of `k` ticks of a reuse counter constructed with burst length 3
and hibernation period 5, with no alloc/free calls in between. -/
def reuseTicks (k : Nat) : Option ReuseCounter :=
  (List.range k).foldlM (fun c _ => c.inc_timer) (ReuseCounter.new 3 5)

/-- A tuner (id 7) whose local free list is drained (`check` returns 0),
with `TARGET_APF = 100` about to be read, a primed reuse counter whose
cached table answers `R(k) = 0` for every `k` (an empty table after a
completed burst), and `time = 99` so the next `malloc` sees
`dapf = 100`. -/
def c4Tuner : ApfTuner :=
  ⟨7, LivenessCounter.new, ⟨3000, 6000, 17, none, some (fun _ => none)⟩,
   99, 0, fun _ => 0, fun _ _ => true, fun _ _ => true⟩

/-- A tuner (id 7) with a primed reuse counter (`R(k) = 0`), `time = 100`,
and `check` returning `201 = 2·demand + 1` for the demand 100 the next
`free` computes. -/
def c9Tuner : ApfTuner :=
  ⟨7, LivenessCounter.new, ⟨3000, 6000, 17, none, some (fun _ => none)⟩,
   100, 0, fun _ => 201, fun _ _ => true, fun _ _ => true⟩

/-- Soundness of the `free_intervals` scan, generalized over the processed
prefix `pre` and the `frees` map: whenever the map satisfies the
most-recent-Free invariant, every emitted pair `(s, e)` points at a Free
event at index `s`, an Alloc event of the same slot at index `e > s`, with
no Free of that slot strictly between. -/
theorem fiAux_sound (rest : List Event) :
    ∀ (pre : List Event) (frees : Nat → Option Nat),
    (∀ c s, frees c = some s →
       s < pre.length ∧ (pre ++ rest)[s]? = some (Event.Free c) ∧
       ∀ j, s < j → j < pre.length → (pre ++ rest)[j]? ≠ some (Event.Free c)) →
    ∀ p ∈ fiAux pre.length frees rest,
      ∃ c, p.1 < p.2 ∧ (pre ++ rest)[p.1]? = some (Event.Free c) ∧
           (pre ++ rest)[p.2]? = some (Event.Alloc c) ∧
           ∀ j, p.1 < j → j < p.2 → (pre ++ rest)[j]? ≠ some (Event.Free c) := by
  induction rest with
  | nil => intro pre frees _ p hp; simp [fiAux] at hp
  | cons ev rest ih =>
    intro pre frees hinv p hp
    have hmid : ∀ x : Event, (pre ++ x :: rest)[pre.length]? = some x := by
      intro x
      rw [List.getElem?_append_right (Nat.le_refl _)]
      simp
    cases ev with
    | Free c =>
      rw [fiAux] at hp
      have hlen : (pre ++ [Event.Free c]).length = pre.length + 1 := by simp
      have hassoc : (pre ++ [Event.Free c]) ++ rest = pre ++ Event.Free c :: rest := by
        simp
      have hinv' : ∀ c' s,
          (fun c'' => if c'' = c then some pre.length else frees c'') c' = some s →
          s < (pre ++ [Event.Free c]).length ∧
          ((pre ++ [Event.Free c]) ++ rest)[s]? = some (Event.Free c') ∧
          ∀ j, s < j → j < (pre ++ [Event.Free c]).length →
            ((pre ++ [Event.Free c]) ++ rest)[j]? ≠ some (Event.Free c') := by
        intro c' s hs
        dsimp only at hs
        rw [hlen, hassoc]
        by_cases hc : c' = c
        · rw [if_pos hc] at hs
          obtain rfl : pre.length = s := Option.some.inj hs
          subst hc
          refine ⟨Nat.lt_succ_self _, hmid _, ?_⟩
          intro j h1 h2
          omega
        · rw [if_neg hc] at hs
          obtain ⟨h1, h2, h3⟩ := hinv c' s hs
          refine ⟨Nat.lt_succ_of_lt h1, h2, ?_⟩
          intro j hj1 hj2
          rcases Nat.lt_succ_iff_lt_or_eq.mp hj2 with hj | hj
          · exact h3 j hj1 hj
          · subst hj
            rw [hmid]
            intro hcontra
            apply hc
            injection Option.some.inj hcontra with h
            omega
      have := ih (pre ++ [Event.Free c]) _ hinv'
      rw [hlen, hassoc] at this
      exact this p hp
    | Alloc c =>
      rw [fiAux] at hp
      have hlen : (pre ++ [Event.Alloc c]).length = pre.length + 1 := by simp
      have hassoc : (pre ++ [Event.Alloc c]) ++ rest = pre ++ Event.Alloc c :: rest := by
        simp
      have hinv' : ∀ c' s, frees c' = some s →
          s < (pre ++ [Event.Alloc c]).length ∧
          ((pre ++ [Event.Alloc c]) ++ rest)[s]? = some (Event.Free c') ∧
          ∀ j, s < j → j < (pre ++ [Event.Alloc c]).length →
            ((pre ++ [Event.Alloc c]) ++ rest)[j]? ≠ some (Event.Free c') := by
        intro c' s hs
        rw [hlen, hassoc]
        obtain ⟨h1, h2, h3⟩ := hinv c' s hs
        refine ⟨Nat.lt_succ_of_lt h1, h2, ?_⟩
        intro j hj1 hj2
        rcases Nat.lt_succ_iff_lt_or_eq.mp hj2 with hj | hj
        · exact h3 j hj1 hj
        · subst hj
          rw [hmid]
          intro hcontra
          cases Option.some.inj hcontra
      have htail := ih (pre ++ [Event.Alloc c]) frees hinv'
      rw [hlen, hassoc] at htail
      cases hfc : frees c with
      | none =>
        rw [hfc] at hp
        exact htail p hp
      | some s =>
        rw [hfc] at hp
        rcases List.mem_cons.mp hp with hps | hps
        · subst hps
          obtain ⟨h1, h2, h3⟩ := hinv c s hfc
          exact ⟨c, h1, h2, hmid _, h3⟩
        · exact htail p hps

/-- C1: the claim asserts that for every trace the fast reduction agrees
with the naive windowed reference at every `k`.  At the failing input
`c1Trace` (= `Free(5), Alloc(5), Alloc(7)`, one interval `(0, 1)`, `n = 2`)
the fast reduction completes and yields `R(2) = 0`, while the reference
counts the interval as contained in the single window of length 2 and
yields `1`; on the spec's own §8 sample trace the fast reduction does not
even complete (out-of-range scatter write). -/
theorem apf_c1_fast_vs_naive :
    (reuseOf c1Trace >>= fun m => m 2) = some 0 ∧
    naiveReuse c1Trace.free_intervals c1Trace.alloc_length 2 = 1 ∧
    (reuseOf sampleTrace).isNone = true := by
  refine ⟨?_, ?_, by decide⟩
  · have h1 : c1Trace.free_intervals = [(0, 1)] := by decide
    have h2 : c1Trace.alloc_length = 2 := by decide
    rw [reuseOf, h1, h2]
    norm_num [reuseReduce, scatterStep, addAtF, getF, setF, reusePrefixes,
      prefixStep, reuseXYZ, xyzStep, reuseEmit, subUsize, List.foldlM,
      List.range', Option.bind]
  · norm_num [c1Trace, mkTrace, Trace.new, Trace.add, naiveReuse,
      Trace.free_intervals, fiAux, Trace.alloc_length, List.range_succ]

/-- C2 (counterexample): on the trace `Alloc(1), Alloc(2), Free(1),
Free(2), Alloc(1)` the code emits the event-clock interval `(2, 4)`,
whereas on the allocation clock (spec wording) the interval is `(2, 3)` —
so the emitted `e` is not the post-increment alloc-count at the
re-Alloc. -/
theorem apf_c2_alloc_clock_counterexample :
    c2Trace.free_intervals = [(2, 4)] ∧
    c2Trace.allocClockIntervals = [(2, 3)] ∧
    ¬ c2Trace.free_intervals = c2Trace.allocClockIntervals := by decide

/-- C2 (amended): every interval emitted by `free_intervals` is on the
*event clock*: `s` is the index of the most recent Free of some slot, `e`
the index of a later Alloc of the same slot with no Free of that slot
strictly between, and the reduction consumes this list together with
`n = alloc_length` (the Alloc-event count, modelled from the spec). -/
theorem apf_c2_event_clock_amended (t : Trace) (p : Nat × Nat)
    (hp : p ∈ t.free_intervals) :
    (∃ c, p.1 < p.2 ∧ t.accesses[p.1]? = some (Event.Free c) ∧
        t.accesses[p.2]? = some (Event.Alloc c) ∧
        ∀ j, p.1 < j → j < p.2 → t.accesses[j]? ≠ some (Event.Free c)) ∧
    reuseOf t = reuseReduce t.free_intervals t.alloc_length := by
  refine ⟨?_, rfl⟩
  have h := fiAux_sound t.accesses [] (fun _ => none)
    (by intro c s hs; exact Option.noConfusion hs) p (by simpa using hp)
  simpa using h

/-- Witness for the amended C2 at the concrete trace `c2Trace` and its
emitted pair `(2, 4)`. -/
theorem apf_c2_event_clock_amended_witness :
    ((2, 4) ∈ c2Trace.free_intervals) ∧
    ((∃ c, 2 < 4 ∧ c2Trace.accesses[2]? = some (Event.Free c) ∧
        c2Trace.accesses[4]? = some (Event.Alloc c) ∧
        ∀ j, 2 < j → j < 4 → c2Trace.accesses[j]? ≠ some (Event.Free c)) ∧
      reuseOf c2Trace = reuseReduce c2Trace.free_intervals c2Trace.alloc_length) :=
  ⟨by decide, apf_c2_event_clock_amended c2Trace (2, 4) (by decide)⟩

/-- C3: on a fresh histogram (`Vec::with_capacity(32)`, length 0) every
one of `get(0)`, `inc(0)` and `add(0, 5)` indexes the empty vector and
panics — the claim's "always succeed, `get` on an unwritten key returns 0"
fails at the very first key. -/
theorem apf_c3_histogram_panics :
    Histogram.get Histogram.new 0 = none ∧
    Histogram.increment Histogram.new 0 = none ∧
    Histogram.add Histogram.new 0 5 = none := by decide

/-- C4: at the drained-free-list scenario (`check = 0`, `TARGET_APF = 100`,
primed reuse counter with `R = 0`, `time` hitting `dapf = 100`) `malloc`
does invoke `get` with `ceil(demand) = 100`, but `fetch_count` stays 0:
`count_fetch` is never called, contradicting the claim's "increments
fetch_count by 1". -/
theorem apf_c4_malloc_fetch_count :
    (c4Tuner.malloc (some 100) 42).map
      (fun r => (r.1, r.2.2, r.2.1.fetch_count)) =
      some (true, [HostCall.check 7, HostCall.get 7 100], 0) := by
  norm_num [c4Tuner, ApfTuner.malloc, USE_ALLOCATION_CLOCK,
    ReuseCounter.alloc, ReuseCounter.inc_timer, ApfTuner.demand,
    ApfTuner.calculate_dapf, ReuseCounter.reuseAt, ceilCast]
  all_goals decide

/-- C5: the §8 sample trace (15 events, 9 Allocs) is collectable during a
sampling burst; its event-clock intervals reach endpoint 14 = length − 1
while the reduction sizes its arrays by `alloc_length = 9`, so the scatter
pass indexes out of range and `inc_timer` hits the error at burst
completion. -/
theorem apf_c5_oob_reachable :
    sampleTrace.free_intervals =
      [(5, 6), (4, 7), (3, 8), (11, 12), (10, 13), (9, 14)] ∧
    sampleTrace.alloc_length = 9 ∧
    sampleTrace.length = 15 ∧
    c5Counter.sampling = true ∧
    c5Counter.trace = some sampleTrace ∧
    (c5Counter.inc_timer).isNone = true := by decide

/-- C6: the sequence `tick; alloc; tick; alloc; tick; alloc` on a fresh
liveness counter panics at the very first `tick` (the histogram `get(0)`
indexes an empty vector), so `liveness(1)` never returns 2.0. -/
theorem apf_c6_liveness_sequence_panics :
    (LivenessCounter.new.inc_timer >>= LivenessCounter.alloc >>=
      LivenessCounter.inc_timer >>= LivenessCounter.alloc >>=
      LivenessCounter.inc_timer >>= LivenessCounter.alloc) = none := by decide

/-- C7: the running-total invariant fails already for the empty call
sequence at `t = 0 ≤ n = 0`: reading `alloc_counts.get(0)` panics instead
of returning 0, and the first `alloc()` call panics as well. -/
theorem apf_c7_running_total_panics :
    Histogram.get LivenessCounter.new.alloc_counts 0 = none ∧
    LivenessCounter.new.alloc = none := by decide

/-- C8: with `B = 3`, `H = 5` and no recorded events, the counter is
sampling while ticks 1 and 2 execute, but the third tick panics inside the
reduction of the empty trace (`n = 0`, `start_index_n_k[0]` indexes an
empty vector) instead of transitioning to hibernation — the claimed
16-tick schedule is cut short at tick 3. -/
theorem apf_c8_schedule_panics :
    (reuseTicks 1).map ReuseCounter.sampling = some true ∧
    (reuseTicks 2).map ReuseCounter.sampling = some true ∧
    (reuseTicks 3).isNone = true := by decide

/-- C9: behaviour of `ApfTuner::free` once `TARGET_APF` is set.  If the
demand computed from `dapf` is known and non-negative and
`check(id) ≥ 2·demand + 1`, `free` invokes `ret` exactly once with
`ceil(demand) + 1` (after one `check` call) and returns success; if the
demand is unknown or negative, `free` returns `false` with no callback
invoked and no state change beyond recording the free in the reuse
counter (spec step 1). -/
theorem apf_c9_free_contract (t : ApfTuner) (ptr T : Nat) :
    (∀ d : Rat,
      ApfTuner.demand { t with r_counter := t.r_counter.free ptr }
        (ApfTuner.calculate_dapf { t with r_counter := t.r_counter.free ptr } T)
        = some (some d) →
      0 ≤ d →
      2 * d + 1 ≤ ((t.check t.id : Nat) : Rat) →
      t.free (some T) ptr =
        some (true, { t with r_counter := t.r_counter.free ptr },
          [HostCall.check t.id, HostCall.ret t.id (ceilCast d + 1)]))
    ∧ ((ApfTuner.demand { t with r_counter := t.r_counter.free ptr }
        (ApfTuner.calculate_dapf { t with r_counter := t.r_counter.free ptr } T)
        = some none ∨
       (∃ d : Rat, ApfTuner.demand { t with r_counter := t.r_counter.free ptr }
        (ApfTuner.calculate_dapf { t with r_counter := t.r_counter.free ptr } T)
        = some (some d) ∧ d < 0)) →
      t.free (some T) ptr =
        some (false, { t with r_counter := t.r_counter.free ptr }, [])) := by
  constructor
  · intro d hd h0 hc
    have hdlt : ¬(d < 0) := not_lt.mpr h0
    simp [ApfTuner.free, USE_ALLOCATION_CLOCK, hd, hdlt, hc, ge_iff_le]
  · intro hu
    rcases hu with hu | ⟨d, hd, hneg⟩
    · simp [ApfTuner.free, USE_ALLOCATION_CLOCK, hu]
    · simp [ApfTuner.free, USE_ALLOCATION_CLOCK, hd, hneg]

/-- Witness for C9 at the concrete tuner `c9Tuner`: demand 100 is known
and non-negative, `check` returns `201 = 2·100 + 1`, and `free` calls
`ret(7, 101)` exactly once. -/
theorem apf_c9_free_contract_witness :
    ApfTuner.free c9Tuner (some 100) 42 =
      some (true, { c9Tuner with r_counter := c9Tuner.r_counter.free 42 },
        [HostCall.check 7, HostCall.ret 7 101]) := by
  have h := (apf_c9_free_contract c9Tuner 42 100).1 100
    (by simp [ApfTuner.demand, c9Tuner, ApfTuner.calculate_dapf,
      ReuseCounter.free, ReuseCounter.reuseAt, USE_ALLOCATION_CLOCK])
    (by norm_num) (by norm_num [c9Tuner])
  simpa [ceilCast, Int.toNat_ofNat] using h

/-- C10: `set_target_apf` succeeds exactly once (a second call panics);
constructing a tuner with the global unset panics; after a single set,
every construction — any number of them — succeeds (`new` never writes the
global). -/
theorem apf_c10_target_apf :
    (∀ v, set_target_apf v none = some (some v)) ∧
    (∀ v w, set_target_apf v (some w) = none) ∧
    (∀ id c g r, ApfTuner.new id c g r none = none) ∧
    (∀ id c g r w, (ApfTuner.new id c g r (some w)).isSome = true) ∧
    (∀ w k id c g r,
      ((List.range k).all
        (fun _ => (ApfTuner.new id c g r (some w)).isSome)) = true) := by
  refine ⟨fun v => rfl, fun v w => rfl, fun id c g r => rfl,
    fun id c g r w => rfl, fun w k id c g r => ?_⟩
  simp [ApfTuner.new]
